import Mathlib

/-!
# Verification of the cylinder time-history reduction pipeline

Shallow embedding of `results/plot-cylinder-histories.py`: the data loader,
record processor, resolution selectors and Simpson-rule integrator, together
with proofs of the specified properties.

Numeric scalars read from participant data files are modelled as `Val`:
either the not-a-number sentinel or an exact rational.  `np.isclose` is
modelled exactly over the rationals with numpy's default tolerances
(`rtol = 1e-5`, `atol = 1e-8`); `np.isclose(nan, x)` is false.
Python run-time failures (IndexError on an empty table, `sys.exit`) are
modelled by `Option`/`none` results.
-/

/-- A scalar field parsed from a data file: numpy float modelled as the
not-a-number sentinel or an exact rational. -/
inductive Val where
  | nan : Val
  | num (q : ℚ) : Val
deriving DecidableEq

/-- `np.isnan` on a `Val`. -/
def Val.isNaN : Val → Bool
  | .nan => true
  | .num _ => false

/-- `np.isclose(a, b)` with default tolerances `rtol = 1e-5`, `atol = 1e-8`,
computed exactly over ℚ: `|a - b| ≤ atol + rtol * |b|`. -/
def isclose (a b : ℚ) : Bool :=
  |a - b| ≤ 1 / 100000000 + (1 / 100000) * |b|

/-- `np.isclose` where the first argument may be the NaN sentinel
(`np.isclose(nan, b)` is false). -/
def vclose : Val → ℚ → Bool
  | .nan, _ => false
  | .num a, b => isclose a b

/-- One row of the five-column raw data table:
`[time, y-force, work-integrand, mass, mass-error]`. -/
structure Row where
  time : Val
  y_force : Val
  work_integrand : Val
  mass : Val
  mass_error : Val
deriving DecidableEq

/-- Participant-supplied integrated quantities, extracted from the synthetic
trailing row (`data[-1,1..4]`). -/
structure PIntegrals where
  yForce : Val
  work : Val
  mass : Val
  massError : Val
deriving DecidableEq

/-- The tuple returned by `process_data`. -/
structure ProcResult where
  time : List Val
  y_force : List Val
  work_integrand : List Val
  mass : List Val
  mass_error : List Val
  participant_integrals : Option PIntegrals
  skip : Bool
deriving DecidableEq

/-- The end-time validation of `process_data`: `np.isclose(time[-1], 1.)`
for motion `"M1"`, `np.isclose(time[-1], 40.)` for `"M2"`, and no check at
all for any other motion identifier. -/
def endTimeOk (motion : String) (t : Val) : Bool :=
  if motion = "M1" then vclose t 1
  else if motion = "M2" then vclose t 40
  else true

/-- The part of `process_data` after the sentinel row has been stripped:
slice the five columns, validate `time[0] ≈ 0` and the motion end time,
and return the series with the skip flag.  An empty table means Python
would raise IndexError at `time[0]`, modelled by `none`. -/
def processStripped (motion : String) (pint : Option PIntegrals) :
    List Row → Option ProcResult
  | [] => none
  | first :: rest =>
    some { time := (first :: rest).map Row.time
           y_force := (first :: rest).map Row.y_force
           work_integrand := (first :: rest).map Row.work_integrand
           mass := (first :: rest).map Row.mass
           mass_error := (first :: rest).map Row.mass_error
           participant_integrals := pint
           skip := !(vclose first.time 0) ||
                   !(endTimeOk motion
                      (((first :: rest).getLast (List.cons_ne_nil first rest)).time)) }

/-- `process_data(data)` from the script (with the global `motion` made an
explicit argument).  Detects a trailing participant-integrals row by
`np.isnan(data[-1,0])`, strips it, slices the columns and validates the
time bounds.  `data[-1,0]` on an empty table raises IndexError, modelled
by `none`; likewise `time[0]` when the stripped table is empty. -/
def process_data (motion : String) (data : List Row) : Option ProcResult :=
  match data.getLast? with
  | none => none
  | some lastRow =>
    if lastRow.time.isNaN then
      processStripped motion
        (some ⟨lastRow.y_force, lastRow.work_integrand, lastRow.mass, lastRow.mass_error⟩)
        data.dropLast
    else
      processStripped motion none data

/-- Canonical end time of a motion: 1 for M1, 40 for M2, undefined otherwise. -/
def canonicalEnd : String → Option ℚ
  | "M1" => some 1
  | "M2" => some 40
  | _ => none

/-- First entry of a series is approximately `q` (`np.isclose(time[0], q)`);
false on an empty series. -/
def firstTimeClose (l : List Val) (q : ℚ) : Bool :=
  match l.head? with
  | some v => vclose v q
  | none => false

/-- Last entry of a series is approximately `q` (`np.isclose(time[-1], q)`);
false on an empty series. -/
def lastTimeClose (l : List Val) (q : ℚ) : Bool :=
  match l.getLast? with
  | some v => vclose v q
  | none => false

/-- Lexicographic comparison of char lists by code point: Python's `<` on
strings. -/
def listLtB : List Char → List Char → Bool
  | [], [] => false
  | [], _ :: _ => true
  | _ :: _, [] => false
  | a :: as, b :: bs =>
    if a.toNat < b.toNat then true
    else if b.toNat < a.toNat then false
    else listLtB as bs

/-- Python string comparison `s < t`. -/
def strLtB (s t : String) : Bool := listLtB s.toList t.toList

/-- Contiguous-sublist test on char lists. -/
def isSubList : List Char → List Char → Bool
  | n, [] => n.isEmpty
  | n, h :: t => n.isPrefixOf (h :: t) || isSubList n t

/-- Python's substring containment `needle in hay`. -/
def isSub (needle hay : String) : Bool := isSubList needle.toList hay.toList

/-- The fixed h-index token list `hs` of the script. -/
def hs : List String := ["h0", "h1", "h2", "h3", "h4", "h5"]

/-- The fixed p-index token list `ps` of the script. -/
def ps : List String := ["p0", "p1", "p2", "p3", "p4", "p5", "p6"]

/-- The fixed t-index token list `ts` of the script. -/
def ts : List String := ["t0", "t1", "t2", "t3", "t4", "t5"]

/-- Python's `k in config` on a dict: key membership, ignoring the value.
A configuration is modelled as an association list of token/flag pairs. -/
def keyPresent (config : List (String × Bool)) (k : String) : Bool :=
  config.any (fun kv => kv.1 == k)

/-- `get_max_h(config)`: scan `reversed(hs)` and return the first token that
is a key of the configuration; if none, `sys.exit()` terminates the run,
modelled by `none`. -/
def get_max_h (config : List (String × Bool)) : Option String :=
  hs.reverse.find? (keyPresent config)

/-- `get_max_p(config)`: scan `reversed(ps)` and return the first token that
is a key of the configuration; if none, `sys.exit()` terminates the run,
modelled by `none`. -/
def get_max_p (config : List (String × Bool)) : Option String :=
  ps.reverse.find? (keyPresent config)

/-- The filename filter of `get_max_t`: the name contains the geometry, the
motion tag and `".txt"` as substrings. -/
def matchesFile (geometry motion file : String) : Bool :=
  isSub geometry file && isSub motion file && isSub ".txt" file

/-- One iteration of the `get_max_t` file loop: if the file matches, scan
`reversed(ts)` and replace the accumulator with the first token that occurs
in the filename and is string-greater than the accumulator (the loop breaks
after the first update). -/
def stepT (geometry motion : String) (acc file : String) : String :=
  if matchesFile geometry motion file then
    match ts.reverse.find? (fun t => isSub t file && strLtB acc t) with
    | some t => t
    | none => acc
  else acc

/-- `get_max_t(group, geometry, motion)` with the directory listing made an
explicit argument: fold the file loop over the listing, starting from the
literal string `"0"` (`max_t = '0'` in the script — not the token `"t0"`). -/
def get_max_t (files : List String) (geometry motion : String) : String :=
  files.foldl (stepT geometry motion) "0"

/-- The canonical data filename `f"{group}/{case}-{motion}-{h}-{p}-{t}.txt"`. -/
def dataFileName (group case motion h p t : String) : String :=
  group ++ "/" ++ case ++ "-" ++ motion ++ "-" ++ h ++ "-" ++ p ++ "-" ++ t ++ ".txt"

/-- Convert one comma-split data line into a `Row`: exactly five numeric
fields, as required of the fixed five-column format. -/
def toRow : List Val → Option Row
  | [a, b, c, d, e] => some ⟨a, b, c, d, e⟩
  | _ => none

/-- `np.loadtxt(file, skiprows=1, delimiter=',', ndmin=2)` on the file's
comma-split numeric lines: drop the one header row and read each remaining
line as a five-field row (the result is always a list of rows, i.e. at
least 2-dimensional, even for a single data line).  `none` models the
exception `np.loadtxt` raises on a malformed line. -/
def np_loadtxt (lines : List (List Val)) : Option (List Row) :=
  (lines.drop 1).mapM toRow

/-- Result of `load_participant_data`: the parsed table, or the `False`
not-found sentinel, or an uncaught parse exception. -/
inductive LoadResult where
  | notFound : LoadResult
  | parseFailure : LoadResult
  | table (rows : List Row) : LoadResult
deriving DecidableEq

/-- `load_participant_data(group, case, motion, h, p, t)` with the
filesystem made explicit: `fs name` is the comma-split numeric content of
file `name`, or `none` when `os.path.isfile` is false.  Returns the parsed
table, or the not-found sentinel together with the printed diagnostic
line. -/
def load_participant_data (fs : String → Option (List (List Val)))
    (group case motion h p t : String) : LoadResult × List String :=
  match fs (dataFileName group case motion h p t) with
  | some lines =>
    match np_loadtxt lines with
    | some rows => (.table rows, [])
    | none => (.parseFailure, [])
  | none => (.notFound, ["Data not found: " ++ dataFileName group case motion h p t])

/-- The inner pairwise sum of scipy's composite Simpson rule
(`_basic_simpson`) for an explicit sample grid: each consecutive interval
pair `[x0,x1,x2]` contributes
`(h0+h1)/6 · (y0·(2−h1/h0) + y1·((h0+h1)²/(h0h1)) + y2·(2−h0/h1))`,
written exactly as scipy computes it (in ℚ, division by zero gives 0,
matching scipy's guarded divisions). -/
def simpsonPairs : List ℚ → List ℚ → ℚ
  | x0 :: x1 :: x2 :: xs, y0 :: y1 :: y2 :: ys =>
    (x2 - x0) / 6 *
        (y0 * (2 - 1 / ((x1 - x0) / (x2 - x1))) +
         y1 * ((x2 - x0) * ((x2 - x0) / ((x1 - x0) * (x2 - x1)))) +
         y2 * (2 - (x1 - x0) / (x2 - x1)))
      + simpsonPairs (x2 :: xs) (y2 :: ys)
  | _, _ => 0

/-- `scipy.integrate.simps(y=y, x=x)` (default `even='avg'`): for an odd
number of samples, the pure composite rule; for an even number, the average
of the two variants that treat the first or last interval by the
trapezoid rule. -/
def simpson (y x : List ℚ) : ℚ :=
  if y.length % 2 = 1 then
    simpsonPairs x y
  else
    ((x.getD (x.length - 1) 0 - x.getD (x.length - 2) 0) *
        (y.getD (y.length - 1) 0 + y.getD (y.length - 2) 0) / 2 +
      (x.getD 1 0 - x.getD 0 0) * (y.getD 1 0 + y.getD 0 0) / 2) / 2 +
    (simpsonPairs x y + simpsonPairs x.tail y.tail) / 2

/-- The per-group integrated quantities after lines 226–228 of the script:
`Y-Force`, `Work` and `Mass` are set to Simpson integrals over time; the
`Mass Error` entry is never assigned (`none`). -/
structure Integrals where
  yForce : Option ℚ
  work : Option ℚ
  mass : Option ℚ
  massError : Option ℚ
deriving DecidableEq

/-- Lines 226–228 of the script: the reference reduction computes exactly
three integrals — of `y_force`, `work_integrand` and `mass` over `time` —
and no integral of `mass_error`. -/
def integrate_quantities (time y_force work_integrand mass : List ℚ) : Integrals :=
  { yForce := some (simpson y_force time)
    work := some (simpson work_integrand time)
    mass := some (simpson mass time)
    massError := none }

/-! ## Helper lemmas about the record processor -/

theorem processStripped_cons (motion : String) (pint : Option PIntegrals)
    (first : Row) (rest : List Row) :
    processStripped motion pint (first :: rest) =
      some { time := (first :: rest).map Row.time
             y_force := (first :: rest).map Row.y_force
             work_integrand := (first :: rest).map Row.work_integrand
             mass := (first :: rest).map Row.mass
             mass_error := (first :: rest).map Row.mass_error
             participant_integrals := pint
             skip := !(vclose first.time 0) ||
                     !(endTimeOk motion
                        (((first :: rest).getLast (List.cons_ne_nil first rest)).time)) } := rfl

theorem process_data_exists_stripped (motion : String) (data : List Row) (r : ProcResult)
    (hp : process_data motion data = some r) :
    ∃ pint d, processStripped motion pint d = some r := by
  unfold process_data at hp
  cases hL : data.getLast? with
  | none => rw [hL] at hp; exact absurd hp (by simp)
  | some lastRow =>
    rw [hL] at hp
    dsimp only at hp
    split at hp
    · exact ⟨_, _, hp⟩
    · exact ⟨_, _, hp⟩

theorem canonicalEnd_cases (motion : String) (endq : ℚ)
    (h : canonicalEnd motion = some endq) :
    (motion = "M1" ∧ endq = 1) ∨ (motion = "M2" ∧ endq = 40) := by
  by_cases h1 : motion = "M1"
  · subst h1; simp [canonicalEnd] at h; exact Or.inl ⟨rfl, h.symm⟩
  · by_cases h2 : motion = "M2"
    · subst h2; simp [canonicalEnd] at h; exact Or.inr ⟨rfl, h.symm⟩
    · exfalso
      unfold canonicalEnd at h
      split at h
      · exact h1 rfl
      · exact h2 rfl
      · exact absurd h (by simp)

theorem processStripped_skip_iff (motion : String) (pint : Option PIntegrals)
    (d : List Row) (r : ProcResult) (endq : ℚ)
    (hm : canonicalEnd motion = some endq)
    (h : processStripped motion pint d = some r) :
    r.skip = false ↔
      (firstTimeClose r.time 0 = true ∧ lastTimeClose r.time endq = true) := by
  cases d with
  | nil => exact absurd h (by simp [processStripped])
  | cons first rest =>
    rw [processStripped_cons] at h
    injection h with h
    subst h
    have hlast : (first.time :: rest.map Row.time).getLast? =
        some (((first :: rest).getLast (List.cons_ne_nil first rest)).time) := by
      rw [← List.map_cons, List.getLast?_map,
        List.getLast?_eq_getLast _ (List.cons_ne_nil first rest)]
      rfl
    rcases canonicalEnd_cases motion endq hm with ⟨rfl, rfl⟩ | ⟨rfl, rfl⟩ <;>
      simp [firstTimeClose, lastTimeClose, endTimeOk, hlast]

/-- C1: for a parsed five-column table (with any NaN-sentinel trailing row
stripped) and motion M1 or M2, `process_data` returns `skip = false` iff the
first time sample is approximately 0 and the last is approximately the
motion's canonical end time (1 for M1, 40 for M2); if either bound check
fails then `skip = true`; and the five returned series always have equal
length. -/
theorem process_data_skip_iff_bounds (data : List Row) (motion : String) (endq : ℚ)
    (r : ProcResult) (hm : canonicalEnd motion = some endq)
    (hp : process_data motion data = some r) :
    (r.skip = false ↔
      (firstTimeClose r.time 0 = true ∧ lastTimeClose r.time endq = true)) ∧
    r.y_force.length = r.time.length ∧ r.work_integrand.length = r.time.length ∧
    r.mass.length = r.time.length ∧ r.mass_error.length = r.time.length := by
  obtain ⟨pint, d, h⟩ := process_data_exists_stripped motion data r hp
  refine ⟨processStripped_skip_iff motion pint d r endq hm h, ?_⟩
  cases d with
  | nil => exact absurd h (by simp [processStripped])
  | cons first rest =>
    rw [processStripped_cons] at h
    injection h with h
    subst h
    simp

/-- Concrete valid M1 table used by the C1 witness. -/
def tblC1 : List Row :=
  [⟨.num 0, .num 1, .num 1, .num 1, .num 1⟩,
   ⟨.num 1, .num 2, .num 2, .num 2, .num 2⟩]

/-- The processing result of `tblC1`. -/
def resC1 : ProcResult :=
  { time := [.num 0, .num 1]
    y_force := [.num 1, .num 2]
    work_integrand := [.num 1, .num 2]
    mass := [.num 1, .num 2]
    mass_error := [.num 1, .num 2]
    participant_integrals := none
    skip := false }

theorem process_data_tblC1 : process_data "M1" tblC1 = some resC1 := by
  norm_num [process_data, processStripped, tblC1, resC1, endTimeOk, vclose, isclose,
    Val.isNaN, List.getLast, abs]

/-- Witness for C1 at the concrete table `tblC1`. -/
theorem process_data_skip_iff_bounds_witness :
    canonicalEnd "M1" = some 1 ∧ process_data "M1" tblC1 = some resC1 ∧
    ((resC1.skip = false ↔
      (firstTimeClose resC1.time 0 = true ∧ lastTimeClose resC1.time 1 = true)) ∧
    resC1.y_force.length = resC1.time.length ∧
    resC1.work_integrand.length = resC1.time.length ∧
    resC1.mass.length = resC1.time.length ∧
    resC1.mass_error.length = resC1.time.length) :=
  ⟨rfl, process_data_tblC1,
    process_data_skip_iff_bounds tblC1 "M1" 1 resC1 rfl process_data_tblC1⟩

theorem processStripped_fields (motion : String) (pint : Option PIntegrals)
    (d : List Row) (r : ProcResult) (h : processStripped motion pint d = some r) :
    r.participant_integrals = pint ∧ r.time = d.map Row.time ∧
    r.y_force = d.map Row.y_force ∧ r.work_integrand = d.map Row.work_integrand ∧
    r.mass = d.map Row.mass ∧ r.mass_error = d.map Row.mass_error := by
  cases d with
  | nil => exact absurd h (by simp [processStripped])
  | cons first rest =>
    rw [processStripped_cons] at h
    injection h with h
    subst h
    exact ⟨rfl, rfl, rfl, rfl, rfl, rfl⟩

/-- C2: a table whose appended last row carries the NaN time sentinel is
detected: the four remaining fields of that row are returned verbatim as the
participant integrals and the five series are exactly the columns of the
original rows with the trailing row removed; a table whose last row has a
non-NaN time yields no participant integrals and keeps every row. -/
theorem process_data_sentinel_roundtrip :
    (∀ (rows : List Row) (a b c d : Val) (motion : String) (r : ProcResult),
      process_data motion (rows ++ [⟨Val.nan, a, b, c, d⟩]) = some r →
      r.participant_integrals = some ⟨a, b, c, d⟩ ∧
      r.time = rows.map Row.time ∧ r.y_force = rows.map Row.y_force ∧
      r.work_integrand = rows.map Row.work_integrand ∧
      r.mass = rows.map Row.mass ∧ r.mass_error = rows.map Row.mass_error) ∧
    (∀ (data : List Row) (lastRow : Row) (motion : String) (r : ProcResult),
      data.getLast? = some lastRow → lastRow.time.isNaN = false →
      process_data motion data = some r →
      r.participant_integrals = none ∧
      r.time = data.map Row.time ∧ r.y_force = data.map Row.y_force ∧
      r.work_integrand = data.map Row.work_integrand ∧
      r.mass = data.map Row.mass ∧ r.mass_error = data.map Row.mass_error) := by
  constructor
  · intro rows a b c d motion r hp
    have he : process_data motion (rows ++ [⟨Val.nan, a, b, c, d⟩]) =
        processStripped motion (some ⟨a, b, c, d⟩) rows := by
      unfold process_data
      rw [List.getLast?_concat]
      simp [Val.isNaN, List.dropLast_concat]
    rw [he] at hp
    exact processStripped_fields motion _ rows r hp
  · intro data lastRow motion r hL hn hp
    have he : process_data motion data = processStripped motion none data := by
      unfold process_data
      rw [hL]
      simp [hn]
    rw [he] at hp
    exact processStripped_fields motion none data r hp

/-- Concrete one-row table used by the C2 witness. -/
def tblC2 : List Row := [⟨.num 0, .num 1, .num 2, .num 3, .num 4⟩]

/-- Sentinel row appended by the C2 witness. -/
def sentC2 : Row := ⟨.nan, .num 10, .num 20, .num 30, .num 40⟩

/-- Processing result of `tblC2 ++ [sentC2]` under motion M1. -/
def resC2 : ProcResult :=
  { time := [.num 0], y_force := [.num 1], work_integrand := [.num 2]
    mass := [.num 3], mass_error := [.num 4]
    participant_integrals := some ⟨.num 10, .num 20, .num 30, .num 40⟩
    skip := true }

/-- Processing result of the plain `tblC2` under motion M1. -/
def resC2B : ProcResult :=
  { time := [.num 0], y_force := [.num 1], work_integrand := [.num 2]
    mass := [.num 3], mass_error := [.num 4]
    participant_integrals := none
    skip := true }

/-- Witness for C2 at a concrete one-row table with and without the
sentinel row. -/
theorem process_data_sentinel_roundtrip_witness :
    (process_data "M1" (tblC2 ++ [sentC2]) = some resC2 ∧
      resC2.participant_integrals = some ⟨.num 10, .num 20, .num 30, .num 40⟩ ∧
      resC2.time = tblC2.map Row.time ∧ resC2.y_force = tblC2.map Row.y_force ∧
      resC2.work_integrand = tblC2.map Row.work_integrand ∧
      resC2.mass = tblC2.map Row.mass ∧ resC2.mass_error = tblC2.map Row.mass_error) ∧
    (tblC2.getLast? = some ⟨.num 0, .num 1, .num 2, .num 3, .num 4⟩ ∧
      (⟨.num 0, .num 1, .num 2, .num 3, .num 4⟩ : Row).time.isNaN = false ∧
      process_data "M1" tblC2 = some resC2B ∧
      resC2B.participant_integrals = none ∧
      resC2B.time = tblC2.map Row.time ∧ resC2B.y_force = tblC2.map Row.y_force ∧
      resC2B.work_integrand = tblC2.map Row.work_integrand ∧
      resC2B.mass = tblC2.map Row.mass ∧
      resC2B.mass_error = tblC2.map Row.mass_error) := by
  have hA : process_data "M1" (tblC2 ++ [sentC2]) = some resC2 := by
    norm_num [process_data, processStripped, tblC2, sentC2, resC2, endTimeOk,
      vclose, isclose, Val.isNaN, List.getLast, abs]
  have hB : process_data "M1" tblC2 = some resC2B := by
    norm_num [process_data, processStripped, tblC2, resC2B, endTimeOk,
      vclose, isclose, Val.isNaN, List.getLast, abs]
  refine ⟨⟨hA, ?_⟩, rfl, rfl, hB, ?_⟩
  · exact process_data_sentinel_roundtrip.1 tblC2 _ _ _ _ "M1" resC2 hA
  · exact process_data_sentinel_roundtrip.2 tblC2 _ "M1" resC2B rfl rfl hB

/-! ## Resolution selectors -/

/-- Modelled from the claim's words, for comparison with `get_max_h`: the
first token of the descending scan that is present *with a true value* in
the mapping (the code instead tests bare key membership). -/
def get_max_h_value_true (config : List (String × Bool)) : Option String :=
  hs.reverse.find? (fun h => config.any (fun kv => kv.1 == h && kv.2))

/-- Counterexample to C3 as stated: on the configuration
`{h4: false, h2: true}` the code returns `h4` (first token present as a
key), not the first token present with a true value, which is `h2`. -/
theorem get_max_h_not_value_filtered :
    get_max_h [("h4", false), ("h2", true)] = some "h4" ∧
    get_max_h_value_true [("h4", false), ("h2", true)] = some "h2" ∧
    ("h4" : String) ≠ "h2" := by
  refine ⟨by decide, by decide, by decide⟩

/-- C3 (amended): `get_max_h`/`get_max_p` scan the fixed descending token
list (`h5..h0`, `p6..p0`) and return the first token present *as a key* of
the configuration mapping, regardless of its value; in particular
`{h2: true, h4: true}` gives `h4`. -/
theorem get_max_selectors_first_key (configH configP : List (String × Bool))
    (hh : ∃ h ∈ hs, keyPresent configH h = true)
    (hp : ∃ p ∈ ps, keyPresent configP p = true) :
    (∃ g l1 l2, get_max_h configH = some g ∧ keyPresent configH g = true ∧
      hs.reverse = l1 ++ g :: l2 ∧ ∀ x ∈ l1, keyPresent configH x = false) ∧
    (∃ g l1 l2, get_max_p configP = some g ∧ keyPresent configP g = true ∧
      ps.reverse = l1 ++ g :: l2 ∧ ∀ x ∈ l1, keyPresent configP x = false) ∧
    get_max_h [("h2", true), ("h4", true)] = some "h4" := by
  refine ⟨?_, ?_, by decide⟩
  · have h1 : (hs.reverse.find? (keyPresent configH)).isSome := by
      rw [List.find?_isSome]
      obtain ⟨h, hmem, hkey⟩ := hh
      exact ⟨h, List.mem_reverse.mpr hmem, hkey⟩
    obtain ⟨g, hg⟩ := Option.isSome_iff_exists.mp h1
    obtain ⟨hpg, as, bs, hsplit, hfail⟩ := List.find?_eq_some.mp hg
    exact ⟨g, as, bs, hg, hpg, hsplit, fun x hx => by simpa using hfail x hx⟩
  · have h1 : (ps.reverse.find? (keyPresent configP)).isSome := by
      rw [List.find?_isSome]
      obtain ⟨p, hmem, hkey⟩ := hp
      exact ⟨p, List.mem_reverse.mpr hmem, hkey⟩
    obtain ⟨g, hg⟩ := Option.isSome_iff_exists.mp h1
    obtain ⟨hpg, as, bs, hsplit, hfail⟩ := List.find?_eq_some.mp hg
    exact ⟨g, as, bs, hg, hpg, hsplit, fun x hx => by simpa using hfail x hx⟩

/-- Witness for the amended C3 at the configurations `{h2: true, h4: true}`
and `{p3: true}`. -/
theorem get_max_selectors_first_key_witness :
    (∃ h ∈ hs, keyPresent [("h2", true), ("h4", true)] h = true) ∧
    (∃ p ∈ ps, keyPresent [("p3", true)] p = true) ∧
    ((∃ g l1 l2, get_max_h [("h2", true), ("h4", true)] = some g ∧
        keyPresent [("h2", true), ("h4", true)] g = true ∧
        hs.reverse = l1 ++ g :: l2 ∧
        ∀ x ∈ l1, keyPresent [("h2", true), ("h4", true)] x = false) ∧
      (∃ g l1 l2, get_max_p [("p3", true)] = some g ∧
        keyPresent [("p3", true)] g = true ∧
        ps.reverse = l1 ++ g :: l2 ∧ ∀ x ∈ l1, keyPresent [("p3", true)] x = false) ∧
      get_max_h [("h2", true), ("h4", true)] = some "h4") :=
  ⟨by decide, by decide,
    get_max_selectors_first_key [("h2", true), ("h4", true)] [("p3", true)]
      (by decide) (by decide)⟩

/-- C5: a configuration with no h-index key (resp. no p-index key) drives
`get_max_h` (resp. `get_max_p`) into its fatal branch — modelled `none`,
the termination of the whole run — rather than any default token value. -/
theorem get_max_selectors_fatal_on_missing (configH configP : List (String × Bool))
    (hh : ∀ h ∈ hs, keyPresent configH h = false)
    (hp : ∀ p ∈ ps, keyPresent configP p = false) :
    get_max_h configH = none ∧ get_max_p configP = none := by
  constructor
  · rw [get_max_h, List.find?_eq_none]
    intro x hx
    simp [hh x (List.mem_reverse.mp hx)]
  · rw [get_max_p, List.find?_eq_none]
    intro x hx
    simp [hp x (List.mem_reverse.mp hx)]

/-- Witness for C5 at a configuration with a key that is no index token. -/
theorem get_max_selectors_fatal_on_missing_witness :
    (∀ h ∈ hs, keyPresent [("color", true)] h = false) ∧
    (∀ p ∈ ps, keyPresent [("color", true)] p = false) ∧
    (get_max_h [("color", true)] = none ∧ get_max_p [("color", true)] = none) :=
  ⟨by decide, by decide,
    get_max_selectors_fatal_on_missing [("color", true)] [("color", true)]
      (by decide) (by decide)⟩

/-! ## Data loader -/

/-- C6: a request whose canonical file is absent yields the not-found
sentinel together with the printed diagnostic, never an exception; a
request whose file exists and parses yields the numeric table with the
header row skipped. -/
theorem load_participant_data_cases
    (fs : String → Option (List (List Val))) (group case motion h p t : String) :
    (fs (dataFileName group case motion h p t) = none →
      load_participant_data fs group case motion h p t =
        (.notFound, ["Data not found: " ++ dataFileName group case motion h p t])) ∧
    (∀ lines rows, fs (dataFileName group case motion h p t) = some lines →
      np_loadtxt lines = some rows →
      load_participant_data fs group case motion h p t = (.table rows, [])) := by
  constructor
  · intro hnone
    unfold load_participant_data
    rw [hnone]
  · intro lines rows hsome hparse
    unfold load_participant_data
    rw [hsome]
    dsimp only
    rw [hparse]

/-- Filesystem fixture for the C6 witness: a single well-formed data file
for group `UM` (one header line and one data line). -/
def fsC6 : String → Option (List (List Val)) := fun name =>
  if name = "UM/Cylinder-M1-h5-p6-t3.txt" then
    some [[.num 0, .num 0, .num 0, .num 0, .num 0],
          [.num 0, .num 1, .num 2, .num 3, .num 4]]
  else none

/-- Witness for C6: the `AFRL` request misses and returns the sentinel with
its diagnostic; the `UM` request parses to a single-row table. -/
theorem load_participant_data_cases_witness :
    (fsC6 (dataFileName "AFRL" "Cylinder" "M1" "h5" "p6" "t3") = none ∧
      load_participant_data fsC6 "AFRL" "Cylinder" "M1" "h5" "p6" "t3" =
        (.notFound,
          ["Data not found: " ++ dataFileName "AFRL" "Cylinder" "M1" "h5" "p6" "t3"])) ∧
    (fsC6 (dataFileName "UM" "Cylinder" "M1" "h5" "p6" "t3") =
        some [[.num 0, .num 0, .num 0, .num 0, .num 0],
              [.num 0, .num 1, .num 2, .num 3, .num 4]] ∧
      np_loadtxt [[.num 0, .num 0, .num 0, .num 0, .num 0],
              [.num 0, .num 1, .num 2, .num 3, .num 4]] =
        some [⟨.num 0, .num 1, .num 2, .num 3, .num 4⟩] ∧
      load_participant_data fsC6 "UM" "Cylinder" "M1" "h5" "p6" "t3" =
        (.table [⟨.num 0, .num 1, .num 2, .num 3, .num 4⟩], [])) := by
  have ha : fsC6 (dataFileName "AFRL" "Cylinder" "M1" "h5" "p6" "t3") = none := by
    decide
  have hu : fsC6 (dataFileName "UM" "Cylinder" "M1" "h5" "p6" "t3") =
      some [[.num 0, .num 0, .num 0, .num 0, .num 0],
            [.num 0, .num 1, .num 2, .num 3, .num 4]] := by decide
  have hl : np_loadtxt [[.num 0, .num 0, .num 0, .num 0, .num 0],
      [.num 0, .num 1, .num 2, .num 3, .num 4]] =
      some [⟨.num 0, .num 1, .num 2, .num 3, .num 4⟩] := by decide
  exact ⟨⟨ha, (load_participant_data_cases fsC6 "AFRL" "Cylinder" "M1" "h5" "p6" "t3").1 ha⟩,
    hu, hl,
    (load_participant_data_cases fsC6 "UM" "Cylinder" "M1" "h5" "p6" "t3").2 _ _ hu hl⟩

/-- C7: for a motion identifier other than M1 and M2 no end-time validation
exists, so any record whose first time sample is approximately 0 is
returned with `skip = false`, whatever its last time sample. -/
theorem process_data_other_motion_skip_false
    (data : List Row) (motion : String) (r : ProcResult)
    (h1 : motion ≠ "M1") (h2 : motion ≠ "M2")
    (hp : process_data motion data = some r)
    (hstart : firstTimeClose r.time 0 = true) :
    r.skip = false := by
  obtain ⟨pint, d, h⟩ := process_data_exists_stripped motion data r hp
  cases d with
  | nil => exact absurd h (by simp [processStripped])
  | cons first rest =>
    rw [processStripped_cons] at h
    injection h with h
    subst h
    simp only [firstTimeClose, List.map_cons, List.head?_cons] at hstart
    simp [endTimeOk, h1, h2, hstart]

/-- Witness for C7 at the valid table `tblC1` under the unvalidated
motion `"M3"`. -/
theorem process_data_other_motion_skip_false_witness :
    ("M3" : String) ≠ "M1" ∧ ("M3" : String) ≠ "M2" ∧
    process_data "M3" tblC1 = some resC1 ∧
    firstTimeClose resC1.time 0 = true ∧ resC1.skip = false := by
  have hne1 : ("M3" : String) ≠ "M1" := by decide
  have hne2 : ("M3" : String) ≠ "M2" := by decide
  have hM3 : process_data "M3" tblC1 = some resC1 := by
    norm_num [process_data, processStripped, tblC1, resC1, endTimeOk, vclose,
      isclose, Val.isNaN, List.getLast, abs, hne1, hne2]
  have hstart : firstTimeClose resC1.time 0 = true := by
    norm_num [firstTimeClose, resC1, vclose, isclose, abs]
  exact ⟨hne1, hne2, hM3, hstart,
    process_data_other_motion_skip_false tblC1 "M3" resC1 hne1 hne2 hM3 hstart⟩

/-! ## Integrator -/

/-- C8: the reference reduction computes exactly three integrals — Y-Force,
Work and Mass — each the composite Simpson-rule definite integral of its
series over the time axis, and no integral for the mass-error series (its
entry is never assigned); the integrator is a pure function, so it is
deterministic by construction.  On time `[0, 1/2, 1]` and y-force
`[0, 1, 0]` the Y-Force integral is exactly the closed-form
composite-Simpson value `2/3`. -/
theorem integrate_quantities_spec :
    (∀ time y_force work_integrand mass : List ℚ,
      integrate_quantities time y_force work_integrand mass =
        { yForce := some (simpson y_force time)
          work := some (simpson work_integrand time)
          mass := some (simpson mass time)
          massError := none }) ∧
    simpson [0, 1, 0] [0, 1/2, 1] = 2/3 := by
  refine ⟨fun _ _ _ _ => rfl, ?_⟩
  norm_num [simpson, simpsonPairs]

/-! ## Monotonicity is not validated -/

/-- Non-strict order on scalar values; false when either side is NaN. -/
def valLeB : Val → Val → Bool
  | .num a, .num b => a ≤ b
  | _, _ => false

/-- The time axis of a series is monotonically non-decreasing. -/
def monotoneTimes (l : List Val) : Bool :=
  (l.zip l.tail).all fun p => valLeB p.1 p.2

/-- Table whose interior time sample decreases yet whose endpoints pass the
M1 validation. -/
def tblC9 : List Row :=
  [⟨.num 0, .num 1, .num 1, .num 1, .num 1⟩,
   ⟨.num 5, .num 2, .num 2, .num 2, .num 2⟩,
   ⟨.num 1, .num 3, .num 3, .num 3, .num 3⟩]

/-- Processing result of `tblC9` under motion M1. -/
def resC9 : ProcResult :=
  { time := [.num 0, .num 5, .num 1]
    y_force := [.num 1, .num 2, .num 3]
    work_integrand := [.num 1, .num 2, .num 3]
    mass := [.num 1, .num 2, .num 3]
    mass_error := [.num 1, .num 2, .num 3]
    participant_integrals := none
    skip := false }

/-- Counterexample to C9 as stated: the table with time column
`[0, 5, 1]` is accepted for motion M1 (`skip = false`) although its time
axis is not monotonically non-decreasing. -/
theorem process_data_accepts_non_monotone :
    process_data "M1" tblC9 = some resC9 ∧ resC9.skip = false ∧
    monotoneTimes resC9.time = false := by
  refine ⟨?_, rfl, ?_⟩
  · norm_num [process_data, processStripped, tblC9, resC9, endTimeOk, vclose,
      isclose, Val.isNaN, List.getLast, abs]
  · norm_num [monotoneTimes, resC9, valLeB]

/-- C9 (amended): acceptance (`skip = false`) certifies exactly the two
endpoint checks — first time sample ≈ 0 and last time sample ≈ the
canonical end time; interior monotonicity of the time axis is not
validated. -/
theorem process_data_accept_endpoint_checks
    (data : List Row) (motion : String) (endq : ℚ) (r : ProcResult)
    (hm : canonicalEnd motion = some endq)
    (hp : process_data motion data = some r) (hsk : r.skip = false) :
    firstTimeClose r.time 0 = true ∧ lastTimeClose r.time endq = true := by
  obtain ⟨pint, d, h⟩ := process_data_exists_stripped motion data r hp
  exact (processStripped_skip_iff motion pint d r endq hm h).mp hsk

/-- Witness for the amended C9 at the accepted table `tblC1`. -/
theorem process_data_accept_endpoint_checks_witness :
    canonicalEnd "M1" = some 1 ∧ process_data "M1" tblC1 = some resC1 ∧
    resC1.skip = false ∧
    (firstTimeClose resC1.time 0 = true ∧ lastTimeClose resC1.time 1 = true) :=
  ⟨rfl, process_data_tblC1, rfl,
    process_data_accept_endpoint_checks tblC1 "M1" 1 resC1 rfl process_data_tblC1 rfl⟩

/-! ## Totality of the record processor -/

/-- Two rows, both carrying the NaN time sentinel. -/
def tblC10 : List Row :=
  [⟨.nan, .num 1, .num 2, .num 3, .num 4⟩,
   ⟨.nan, .num 5, .num 6, .num 7, .num 8⟩]

/-- Counterexample to C10's closing generalisation: a table of two sentinel
rows contains no non-sentinel data row, yet `process_data` succeeds on it
(the first row survives the strip, and its NaN time merely fails the
start-time check). -/
theorem process_data_total_without_data_row :
    (process_data "M1" tblC10).isSome = true ∧
    tblC10.all (fun row => row.time.isNaN) = true := by
  constructor
  · norm_num [process_data, processStripped, tblC10, Val.isNaN]
  · norm_num [tblC10, Val.isNaN]

/-- C10 (amended): `process_data` fails (the IndexError at `time[0]`,
modelled `none`) exactly on the empty table and on the one-row table whose
row is the NaN sentinel — i.e. it is total iff the table is nonempty and
not the singleton sentinel; in particular a one-row sentinel table is
rejected because the strip leaves zero-length series. -/
theorem process_data_isSome_iff (motion : String) (data : List Row) :
    ((process_data motion data).isSome = true ↔
      (data ≠ [] ∧ ∀ row, data = [row] → row.time.isNaN = false)) ∧
    (∀ a b c d : Val, process_data motion [⟨Val.nan, a, b, c, d⟩] = none) := by
  constructor
  · cases data with
    | nil => simp [process_data]
    | cons a tail =>
      cases tail with
      | nil =>
        cases ha : a.time.isNaN with
        | true => simp [process_data, processStripped, ha]
        | false => simp [process_data, processStripped, ha]
      | cons b tail2 =>
        have hs1 : ∀ (pint : Option PIntegrals) (x : Row) (xs : List Row),
            (processStripped motion pint (x :: xs)).isSome = true := by
          intro pint x xs
          rw [processStripped_cons]
          rfl
        have hL : (a :: b :: tail2).getLast? =
            some ((a :: b :: tail2).getLast (by simp)) := List.getLast?_eq_getLast _ _
        constructor
        · intro _
          refine ⟨by simp, ?_⟩
          intro row hrow
          simp at hrow
        · intro _
          unfold process_data
          rw [hL]
          dsimp only
          split
          · have hdl : (a :: b :: tail2).dropLast = a :: (b :: tail2).dropLast := rfl
            rw [hdl]
            exact hs1 _ _ _
          · exact hs1 _ _ _
  · intro a b c d
    simp [process_data, processStripped, Val.isNaN]

/-- Witness for the amended C10 at the one-row table `tblC2`. -/
theorem process_data_isSome_iff_witness :
    ((process_data "M1" tblC2).isSome = true ↔
      (tblC2 ≠ [] ∧ ∀ row, tblC2 = [row] → row.time.isNaN = false)) ∧
    (∀ a b c d : Val, process_data "M1" [⟨Val.nan, a, b, c, d⟩] = none) :=
  process_data_isSome_iff "M1" tblC2

/-! ## get_max_t: maximality and the default accumulator -/

/-- Every string value the `get_max_t` accumulator can take: the initial
`"0"` and the six t-tokens. -/
def tR : List String := ["0", "t0", "t1", "t2", "t3", "t4", "t5"]

theorem ts_subset_tR : ∀ t ∈ ts, t ∈ tR := by decide

theorem strLtB_rank_iff :
    ∀ a ∈ tR, ∀ b ∈ tR, (strLtB a b = true ↔ tR.indexOf a < tR.indexOf b) := by
  decide

theorem ts_reverse_rank_desc :
    List.Pairwise (fun a b => tR.indexOf b < tR.indexOf a) ts.reverse := by decide

theorem stepT_cases (g m acc f : String) :
    stepT g m acc f = acc ∨
    ∃ t ∈ ts, stepT g m acc f = t ∧ matchesFile g m f = true ∧
      isSub t f = true ∧ strLtB acc t = true := by
  unfold stepT
  by_cases hm : matchesFile g m f = true
  · rw [if_pos hm]
    rcases hf : ts.reverse.find? (fun t => isSub t f && strLtB acc t) with _ | t
    · left
      rfl
    · right
      have hmem := List.mem_of_find?_eq_some hf
      have hp := List.find?_some hf
      rw [Bool.and_eq_true] at hp
      exact ⟨t, List.mem_reverse.mp hmem, rfl, hm, hp.1, hp.2⟩
  · rw [if_neg hm]
    left
    rfl

theorem foldl_stepT_rank (g m : String) (files : List String) :
    ∀ acc, acc ∈ tR →
      List.foldl (stepT g m) acc files ∈ tR ∧
      tR.indexOf acc ≤ tR.indexOf (List.foldl (stepT g m) acc files) := by
  induction files with
  | nil => exact fun acc hacc => ⟨hacc, le_refl _⟩
  | cons f fs ih =>
    intro acc hacc
    have hstep : stepT g m acc f ∈ tR ∧
        tR.indexOf acc ≤ tR.indexOf (stepT g m acc f) := by
      rcases stepT_cases g m acc f with he | ⟨t, htm, he, _, _, hlt⟩
      · rw [he]
        exact ⟨hacc, le_refl _⟩
      · rw [he]
        have htR := ts_subset_tR t htm
        exact ⟨htR, le_of_lt ((strLtB_rank_iff acc hacc t htR).mp hlt)⟩
    have hind := ih (stepT g m acc f) hstep.1
    rw [List.foldl_cons]
    exact ⟨hind.1, le_trans hstep.2 hind.2⟩

theorem stepT_bound (g m f t acc : String) (hacc : acc ∈ tR)
    (hmatch : matchesFile g m f = true) (ht : t ∈ ts) (hsub : isSub t f = true) :
    tR.indexOf t ≤ tR.indexOf (stepT g m acc f) := by
  have htR := ts_subset_tR t ht
  unfold stepT
  rw [if_pos hmatch]
  rcases hf : ts.reverse.find? (fun x => isSub x f && strLtB acc x) with _ | u
  · have hall := List.find?_eq_none.mp hf t (List.mem_reverse.mpr ht)
    simp only [Bool.and_eq_true, not_and] at hall
    have hlt : ¬ strLtB acc t = true := hall hsub
    have hnlt : ¬ tR.indexOf acc < tR.indexOf t :=
      fun hc => hlt ((strLtB_rank_iff acc hacc t htR).mpr hc)
    exact Nat.le_of_not_lt hnlt
  · have hpu := List.find?_some hf
    rw [Bool.and_eq_true] at hpu
    obtain ⟨-, as, bs, hsplit, hfail⟩ := List.find?_eq_some.mp hf
    have huR := ts_subset_tR u (List.mem_reverse.mp (List.mem_of_find?_eq_some hf))
    by_cases hcase : tR.indexOf acc < tR.indexOf t
    · have hpt : (isSub t f && strLtB acc t) = true := by
        rw [Bool.and_eq_true]
        exact ⟨hsub, (strLtB_rank_iff acc hacc t htR).mpr hcase⟩
      have htrev : t ∈ as ++ u :: bs := hsplit ▸ List.mem_reverse.mpr ht
      rcases List.mem_append.mp htrev with hta | htc
      · have hft := hfail t hta
        simp [hpt] at hft
      · rcases List.mem_cons.mp htc with rfl | htb
        · exact le_refl _
        · have hdesc := ts_reverse_rank_desc
          rw [hsplit] at hdesc
          have hcons := (List.pairwise_append.mp hdesc).2.1
          exact le_of_lt (List.rel_of_pairwise_cons hcons htb)
    · have h1 : tR.indexOf t ≤ tR.indexOf acc := Nat.le_of_not_lt hcase
      have h2 : tR.indexOf acc < tR.indexOf u :=
        (strLtB_rank_iff acc hacc u huR).mp hpu.2
      exact le_of_lt (lt_of_le_of_lt h1 h2)

theorem foldl_stepT_bound (g m : String) (files : List String) :
    ∀ acc, acc ∈ tR →
      ∀ f ∈ files, matchesFile g m f = true →
        ∀ t ∈ ts, isSub t f = true →
          tR.indexOf t ≤ tR.indexOf (List.foldl (stepT g m) acc files) := by
  induction files with
  | nil => exact fun acc _ f hf => absurd hf (List.not_mem_nil f)
  | cons f0 fs ih =>
    intro acc hacc f hf hmatch t ht hsub
    rw [List.foldl_cons]
    have hstep_mem : stepT g m acc f0 ∈ tR := by
      rcases stepT_cases g m acc f0 with he | ⟨u, hum, he, _, _, _⟩
      · rw [he]
        exact hacc
      · rw [he]
        exact ts_subset_tR u hum
    rcases List.mem_cons.mp hf with rfl | hfs
    · have h1 := stepT_bound g m f t acc hacc hmatch ht hsub
      have h2 := (foldl_stepT_rank g m fs (stepT g m acc f) hstep_mem).2
      exact le_trans h1 h2
    · exact ih (stepT g m acc f0) hstep_mem f hfs hmatch t ht hsub

theorem foldl_stepT_id (g m : String) (files : List String) :
    ∀ acc, (∀ f ∈ files, matchesFile g m f = false) →
      List.foldl (stepT g m) acc files = acc := by
  induction files with
  | nil => exact fun _ _ => rfl
  | cons f0 fs ih =>
    intro acc hall
    rw [List.foldl_cons]
    have h0 : stepT g m acc f0 = acc := by
      unfold stepT
      simp [hall f0 (List.mem_cons_self f0 fs)]
    rw [h0]
    exact ih acc (fun f hf => hall f (List.mem_cons_of_mem f0 hf))

theorem foldl_stepT_attain (g m : String) (files : List String) :
    ∀ acc, List.foldl (stepT g m) acc files = acc ∨
      ∃ f ∈ files, matchesFile g m f = true ∧
        List.foldl (stepT g m) acc files ∈ ts ∧
        isSub (List.foldl (stepT g m) acc files) f = true := by
  induction files with
  | nil => exact fun _ => Or.inl rfl
  | cons f0 fs ih =>
    intro acc
    rw [List.foldl_cons]
    rcases ih (stepT g m acc f0) with he | ⟨f, hf, hmatch, hts, hsub⟩
    · rw [he]
      rcases stepT_cases g m acc f0 with h0 | ⟨t, htm, h0, hmatch0, hsub0, _⟩
      · rw [h0]
        exact Or.inl rfl
      · rw [h0]
        exact Or.inr ⟨f0, List.mem_cons_self f0 fs, hmatch0, htm, hsub0⟩
    · exact Or.inr ⟨f, List.mem_cons_of_mem f0 hf, hmatch, hts, hsub⟩

/-- Counterexample to C4 as stated: with no matching filename `get_max_t`
returns the bare string `"0"`, which is not the token `"t0"`. -/
theorem get_max_t_default_not_t0 :
    get_max_t [] "Cylinder" "M1" = "0" ∧ ("0" : String) ≠ "t0" := by
  exact ⟨rfl, by decide⟩

/-- C4 (amended): `get_max_t` returns the highest t-token contained in any
filename that matches the geometry/motion/extension filter (`t5` in the
spec's example), and when no filename matches — or no matching filename
contains a token — it returns the initial accumulator, the literal string
`"0"` rather than the token `"t0"`.  The last two conjuncts together pin
the result: every token found in a matching filename is string-`≤` the
result (upper bound), and the result is itself either `"0"` or a token
found in some matching filename (attained), so it is exactly the highest
found token when one exists and `"0"` otherwise. -/
theorem get_max_t_highest_token :
    get_max_t ["Cylinder-M1-h3-p4-t2.txt", "Cylinder-M1-h3-p4-t5.txt"]
        "Cylinder" "M1" = "t5" ∧
    (∀ (files : List String) (g m : String),
      (∀ f ∈ files, matchesFile g m f = false) → get_max_t files g m = "0") ∧
    (∀ (files : List String) (g m f t : String),
      f ∈ files → matchesFile g m f = true → t ∈ ts → isSub t f = true →
      strLtB (get_max_t files g m) t = false) ∧
    (∀ (files : List String) (g m : String),
      get_max_t files g m = "0" ∨
      ∃ f ∈ files, matchesFile g m f = true ∧
        get_max_t files g m ∈ ts ∧ isSub (get_max_t files g m) f = true) := by
  refine ⟨by decide, ?_, ?_, ?_⟩
  · intro files g m hall
    exact foldl_stepT_id g m files "0" hall
  · intro files g m f t hf hmatch ht hsub
    have h0R : ("0" : String) ∈ tR := by decide
    have hres := foldl_stepT_rank g m files "0" h0R
    have hbound := foldl_stepT_bound g m files "0" h0R f hf hmatch t ht hsub
    have htR := ts_subset_tR t ht
    have hiff := strLtB_rank_iff (List.foldl (stepT g m) "0" files) hres.1 t htR
    rw [Bool.eq_false_iff]
    intro hcontra
    exact absurd (hiff.mp hcontra) (Nat.not_lt_of_le hbound)
  · intro files g m
    exact foldl_stepT_attain g m files "0"

/-- Witness for the amended C4: a non-matching listing yields `"0"`; in the
spec's two-file example the result is not below the token `t2`, and the
result is attained as a token of some matching file of the listing. -/
theorem get_max_t_highest_token_witness :
    (∀ f ∈ ["README.md"], matchesFile "Cylinder" "M1" f = false) ∧
    get_max_t ["README.md"] "Cylinder" "M1" = "0" ∧
    ("Cylinder-M1-h3-p4-t2.txt" ∈
        ["Cylinder-M1-h3-p4-t2.txt", "Cylinder-M1-h3-p4-t5.txt"] ∧
      matchesFile "Cylinder" "M1" "Cylinder-M1-h3-p4-t2.txt" = true ∧
      ("t2" : String) ∈ ts ∧
      isSub "t2" "Cylinder-M1-h3-p4-t2.txt" = true ∧
      strLtB (get_max_t ["Cylinder-M1-h3-p4-t2.txt", "Cylinder-M1-h3-p4-t5.txt"]
        "Cylinder" "M1") "t2" = false) ∧
    (get_max_t ["Cylinder-M1-h3-p4-t2.txt", "Cylinder-M1-h3-p4-t5.txt"]
        "Cylinder" "M1" = "0" ∨
      ∃ f ∈ ["Cylinder-M1-h3-p4-t2.txt", "Cylinder-M1-h3-p4-t5.txt"],
        matchesFile "Cylinder" "M1" f = true ∧
        get_max_t ["Cylinder-M1-h3-p4-t2.txt", "Cylinder-M1-h3-p4-t5.txt"]
          "Cylinder" "M1" ∈ ts ∧
        isSub (get_max_t ["Cylinder-M1-h3-p4-t2.txt", "Cylinder-M1-h3-p4-t5.txt"]
          "Cylinder" "M1") f = true) := by
  have hnm : ∀ f ∈ ["README.md"], matchesFile "Cylinder" "M1" f = false := by decide
  refine ⟨hnm, get_max_t_highest_token.2.1 ["README.md"] "Cylinder" "M1" hnm,
    ⟨by decide, by decide, by decide, by decide, ?_⟩, ?_⟩
  · exact get_max_t_highest_token.2.2.1
      ["Cylinder-M1-h3-p4-t2.txt", "Cylinder-M1-h3-p4-t5.txt"] "Cylinder" "M1"
      "Cylinder-M1-h3-p4-t2.txt" "t2" (by decide) (by decide) (by decide) (by decide)
  · exact get_max_t_highest_token.2.2.2
      ["Cylinder-M1-h3-p4-t2.txt", "Cylinder-M1-h3-p4-t5.txt"] "Cylinder" "M1"
